import Mathlib

/-!
Shallow embedding of `ContentTypeWriter` (MSIX content-types manifest writer)
and the slice of its XML-writer collaborator that its behaviour depends on.

The `ContentTypeWriter` member functions are translated directly from the
C++ source. The generic XML writer collaborator (`XmlWriter`), the
well-known part-name constants and the `xmlns` attribute name are declared
outside the provided sources; they are modelled from the specification and
carry a doc comment saying so.
-/

namespace MSIX

/-- Errors surfaced by the writer; the source throws `Error::Unexpected`
when the document is in a malformed state. -/
inductive Error where
  | Unexpected
deriving DecidableEq, Repr

/-- One call made to the XML writer collaborator during this session:
opening an element, adding an attribute to the open element, or closing
the innermost open element. -/
inductive XmlOp where
  | start (name : String)
  | attr (name value : String)
  | close
deriving DecidableEq, Repr

/-- Modelled from the spec: the generic XML writer collaborator
(`XmlWriter.hpp` is not among the provided sources). Its state is the
ordered trace of operations performed through it this session, together
with the number of currently open elements. The terminal `Finish` state is
reachable only after the root element has been explicitly closed, i.e.
exactly when no element remains open; an operation invoked in a state
where it is invalid (appending after the root closed, or closing with
nothing open) fails with the `Error::Unexpected`-equivalent. -/
structure XmlWriter where
  ops : List XmlOp
  depth : Nat
deriving DecidableEq, Repr

/-- Modelled from the spec: the collaborator's queryable state. -/
inductive XmlState where
  | Open
  | Finish
deriving DecidableEq, Repr

/-- Modelled from the spec: terminal state holds exactly once the root
element has been closed. -/
def XmlWriter.GetState (w : XmlWriter) : XmlState :=
  if w.depth = 0 then XmlState.Finish else XmlState.Open

/-- Modelled from the spec: open a child element under the innermost open
element; invalid once the root has been closed. -/
def XmlWriter.StartElement (w : XmlWriter) (name : String) : Except Error XmlWriter :=
  if w.depth = 0 then Except.error Error.Unexpected
  else Except.ok ⟨w.ops ++ [XmlOp.start name], w.depth + 1⟩

/-- Modelled from the spec: add an attribute to the innermost open
element; invalid once the root has been closed. -/
def XmlWriter.AddAttribute (w : XmlWriter) (name value : String) : Except Error XmlWriter :=
  if w.depth = 0 then Except.error Error.Unexpected
  else Except.ok ⟨w.ops ++ [XmlOp.attr name value], w.depth⟩

/-- Modelled from the spec: close the innermost open element (the element
self-closes once its attributes are complete); invalid when nothing is
open. Closing the root reaches the terminal state. -/
def XmlWriter.CloseElement (w : XmlWriter) : Except Error XmlWriter :=
  if w.depth = 0 then Except.error Error.Unexpected
  else Except.ok ⟨w.ops ++ [XmlOp.close], w.depth - 1⟩

/-- Modelled from the spec: the fresh-document `XmlWriter(root, true)`
constructor opens the root element. -/
def XmlWriter.mkFresh (root : String) : XmlWriter :=
  ⟨[XmlOp.start root], 1⟩

/-- Modelled from the spec: `Initialize(existingXmlText, rootElementName)`
parses the existing bytes, locates the named root element and positions
for appending further children inside it, preserving all previously
existing children verbatim. The preserved children are part of the
underlying document, not of this session's operation trace, so the
session trace starts empty with the root element open. -/
def XmlWriter.Initialize (sourceXml : String) (root : String) : XmlWriter :=
  ⟨[], 1⟩

-- String constants from the source file.
def typesElement : String := "Types"
def typesNamespace : String := "http://schemas.openxmlformats.org/package/2006/content-types"
def defaultElement : String := "Default"
def contentTypeAttribute : String := "ContentType"
def extensionAttribute : String := "Extension"
def overrideElement : String := "Override"
def partNameAttribute : String := "PartName"

/-- Modelled from the spec: the name of the namespace attribute on the
root element (`xmlnsAttribute` is declared with the XML writer, outside
the provided sources); the produced root carries the OPC content-types
namespace in the standard `xmlns` attribute. -/
def xmlnsAttribute : String := "xmlns"

/-- Modelled from the spec: the well-known package digital-signature part
file name (the `APPXSIGNATURE_P7X` constant is declared in a header
outside the provided sources; the spec's serialized fragment is
`/AppxSignature.p7x`). -/
def APPXSIGNATURE_P7X : String := "AppxSignature.p7x"

/-- Modelled from the spec: the well-known code-integrity catalog part
file name (the `CODEINTEGRITY_CAT` constant is declared in a header
outside the provided sources; the spec's serialized fragment is
`/AppxMetadata/CodeIntegrity.cat`). -/
def CODEINTEGRITY_CAT : String := "AppxMetadata/CodeIntegrity.cat"

/-- Source `ContentTypeWriter::GetPartNameSearchString`: from a file name,
the literal substring searched for in the serialized XML,
`"\"/" + fileName + '"'`. -/
def GetPartNameSearchString (fileName : String) : String :=
  "\"/" ++ fileName ++ "\""

/-- Source `std::string::rfind(pat) != npos`: whether `pat` occurs
as a contiguous substring of `s` (an occurrence exists iff a last
occurrence exists, so `rfind ≠ npos` is plain occurrence). -/
def containsSub (s pat : String) : Bool :=
  (List.range (s.data.length + 1)).any (fun i => pat.data.isPrefixOf (s.data.drop i))

/-- Source `::tolower` on the C locale for the character range the source feeds
it (ASCII file-name characters): map `A`–`Z` to `a`–`z`, leave the rest. -/
def tolowerChar (c : Char) : Char :=
  if 'A' ≤ c ∧ c ≤ 'Z' then Char.ofNat (c.toNat + 32) else c

/-- Source `std::transform(ext.begin(), ext.end(), ext.begin(), ::tolower)`. -/
def strToLower (s : String) : String :=
  ⟨s.data.map tolowerChar⟩

/-- Source `std::string::find_last_of(".")` on the character list: the index of
the last occurrence of `c`, or `none` for `npos`. -/
def find_last_of : List Char → Char → Option Nat
  | [], _ => none
  | x :: xs, c =>
    match find_last_of xs c with
    | some i => some (i + 1)
    | none => if x = c then some 0 else none

/-- Source `name.substr(name.find_last_of(".") + 1)` lower-cased: the extension
used as the key of the default-extension table. When no `.` occurs,
`find_last_of` yields `npos` and `npos + 1` wraps to index `0`, so the
whole name is taken. -/
def computeExt (name : String) : String :=
  let start : Nat :=
    match find_last_of name.data '.' with
    | some i => i + 1
    | none => 0
  strToLower ⟨name.data.drop start⟩

/-- Source `ContentTypeWriter`: the XML writer collaborator it owns, the
`std::map<std::string, std::string> m_defaultExtensions` table (as an
association list: `emplace` is only reached when the key is absent, so
lookup behaviour coincides with the ordered map), and the two well-known
presence flags. -/
structure ContentTypeWriter where
  m_xmlWriter : XmlWriter
  m_defaultExtensions : List (String × String)
  m_hasSignatureOverride : Bool
  m_hasCIOverride : Bool
deriving DecidableEq, Repr

/-- Source `ContentTypeWriter::ContentTypeWriter()`: open the `Types` root and
add the namespace attribute (adding an attribute to the freshly opened
root cannot fail, so the resulting state is written directly). -/
def ContentTypeWriter.new : ContentTypeWriter :=
  { m_xmlWriter := ⟨[XmlOp.start typesElement, XmlOp.attr xmlnsAttribute typesNamespace], 1⟩
    m_defaultExtensions := []
    m_hasSignatureOverride := false
    m_hasCIOverride := false }

/-- Source `ContentTypeWriter::ContentTypeWriter(IStream*)`: read the existing
manifest text, derive the two well-known presence flags by substring
search for the part-name search strings, and initialize the XML writer to
resume inside the existing `Types` root. -/
def ContentTypeWriter.reopen (sourceXml : String) : ContentTypeWriter :=
  let signaturePartNameSearch := GetPartNameSearchString APPXSIGNATURE_P7X
  let ciPartNameSearch := GetPartNameSearchString CODEINTEGRITY_CAT
  { m_xmlWriter := XmlWriter.Initialize sourceXml typesElement
    m_defaultExtensions := []
    m_hasSignatureOverride := containsSub sourceXml signaturePartNameSearch
    m_hasCIOverride := containsSub sourceXml ciPartNameSearch }

/-- Source `ContentTypeWriter::AddDefault(ext, contentType)`:
`<Default ContentType="..." Extension="..."/>`. -/
def ContentTypeWriter.AddDefault (w : ContentTypeWriter) (ext contentType : String) :
    Except Error ContentTypeWriter := do
  let xw ← w.m_xmlWriter.StartElement defaultElement
  let xw ← xw.AddAttribute contentTypeAttribute contentType
  let xw ← xw.AddAttribute extensionAttribute ext
  let xw ← xw.CloseElement
  pure { w with m_xmlWriter := xw }

/-- Source `ContentTypeWriter::AddOverride(file, contentType)`: build the part
name as `"/" + file`, then `<Override ContentType="..." PartName="..."/>`. -/
def ContentTypeWriter.AddOverride (w : ContentTypeWriter) (file contentType : String) :
    Except Error ContentTypeWriter := do
  let partName := "/" ++ file
  let xw ← w.m_xmlWriter.StartElement overrideElement
  let xw ← xw.AddAttribute contentTypeAttribute contentType
  let xw ← xw.AddAttribute partNameAttribute partName
  let xw ← xw.CloseElement
  pure { w with m_xmlWriter := xw }

/-- The guard of `AddContentType`: `name` is a well-known part whose
override is already recorded as present. -/
def wellKnownGuard (w : ContentTypeWriter) (name : String) : Bool :=
  (name == APPXSIGNATURE_P7X && w.m_hasSignatureOverride) ||
  (name == CODEINTEGRITY_CAT && w.m_hasCIOverride)

/-- Source `ContentTypeWriter::AddContentType(name, contentType, forceOverride)`. -/
def ContentTypeWriter.AddContentType (w : ContentTypeWriter)
    (name contentType : String) (forceOverride : Bool) :
    Except Error ContentTypeWriter :=
  if wellKnownGuard w name then
    Except.ok w
  else if forceOverride then
    w.AddOverride name contentType
  else
    let ext := computeExt name
    match w.m_defaultExtensions.lookup ext with
    | some found =>
      if found ≠ contentType then
        w.AddOverride name contentType
      else
        Except.ok w
    | none => do
      let w2 ← w.AddDefault ext contentType
      pure { w2 with m_defaultExtensions := (ext, contentType) :: w2.m_defaultExtensions }

/-- Source `ContentTypeWriter::Close()`: close the root element, then fail with
`Error::Unexpected` unless the collaborator reports `Finish`. -/
def ContentTypeWriter.Close (w : ContentTypeWriter) : Except Error ContentTypeWriter :=
  match w.m_xmlWriter.CloseElement with
  | Except.error e => Except.error e
  | Except.ok xw =>
    if xw.GetState ≠ XmlState.Finish then Except.error Error.Unexpected
    else Except.ok { w with m_xmlWriter := xw }

/-- The operation block a `Default` emission appends to the collaborator
trace. -/
def defaultOps (ext contentType : String) : List XmlOp :=
  [XmlOp.start defaultElement, XmlOp.attr contentTypeAttribute contentType,
   XmlOp.attr extensionAttribute ext, XmlOp.close]

/-- The operation block an `Override` emission appends to the
collaborator trace. -/
def overrideOps (file contentType : String) : List XmlOp :=
  [XmlOp.start overrideElement, XmlOp.attr contentTypeAttribute contentType,
   XmlOp.attr partNameAttribute ("/" ++ file), XmlOp.close]

/-- Number of elements named `e` started in an operation trace. -/
def countElements (e : String) (ops : List XmlOp) : Nat :=
  (ops.filter (fun op => match op with
    | XmlOp.start n => n == e
    | _ => false)).length

/-- A session fragment: perform one non-forced `AddContentType` call per
`(name, contentType)` pair, in order, stopping at the first failure. -/
def addAll (w : ContentTypeWriter) : List (String × String) → Except Error ContentTypeWriter
  | [] => Except.ok w
  | (n, c) :: rest =>
    match w.AddContentType n c false with
    | Except.error e => Except.error e
    | Except.ok w' => addAll w' rest

/-! ## Emission lemmas -/

lemma addDefault_ok (w : ContentTypeWriter) (e c : String)
    (h : 0 < w.m_xmlWriter.depth) :
    w.AddDefault e c =
      Except.ok { w with m_xmlWriter :=
        ⟨w.m_xmlWriter.ops ++ defaultOps e c, w.m_xmlWriter.depth⟩ } := by
  have h0 : w.m_xmlWriter.depth ≠ 0 := Nat.pos_iff_ne_zero.mp h
  simp [ContentTypeWriter.AddDefault, XmlWriter.StartElement, XmlWriter.AddAttribute,
    XmlWriter.CloseElement, h0, defaultOps, bind, Except.bind, pure, Except.pure]

lemma addOverride_ok (w : ContentTypeWriter) (f c : String)
    (h : 0 < w.m_xmlWriter.depth) :
    w.AddOverride f c =
      Except.ok { w with m_xmlWriter :=
        ⟨w.m_xmlWriter.ops ++ overrideOps f c, w.m_xmlWriter.depth⟩ } := by
  have h0 : w.m_xmlWriter.depth ≠ 0 := Nat.pos_iff_ne_zero.mp h
  simp [ContentTypeWriter.AddOverride, XmlWriter.StartElement, XmlWriter.AddAttribute,
    XmlWriter.CloseElement, h0, overrideOps, bind, Except.bind, pure, Except.pure]

lemma wellKnownGuard_iff (w : ContentTypeWriter) (name : String) :
    wellKnownGuard w name = true ↔
      ((name = APPXSIGNATURE_P7X ∧ w.m_hasSignatureOverride = true) ∨
       (name = CODEINTEGRITY_CAT ∧ w.m_hasCIOverride = true)) := by
  simp [wellKnownGuard, Bool.or_eq_true, Bool.and_eq_true, beq_iff_eq]

lemma addContentType_guard (w : ContentTypeWriter) (name contentType : String)
    (forceOverride : Bool) (hg : wellKnownGuard w name = true) :
    w.AddContentType name contentType forceOverride = Except.ok w := by
  simp [ContentTypeWriter.AddContentType, hg]

lemma addContentType_forced (w : ContentTypeWriter) (name contentType : String)
    (hg : wellKnownGuard w name = false) (hd : 0 < w.m_xmlWriter.depth) :
    w.AddContentType name contentType true =
      Except.ok { w with m_xmlWriter :=
        ⟨w.m_xmlWriter.ops ++ overrideOps name contentType, w.m_xmlWriter.depth⟩ } := by
  simp [ContentTypeWriter.AddContentType, hg, addOverride_ok w name contentType hd]

lemma addContentType_absent (w : ContentTypeWriter) (name contentType : String)
    (hg : wellKnownGuard w name = false) (hd : 0 < w.m_xmlWriter.depth)
    (hl : w.m_defaultExtensions.lookup (computeExt name) = none) :
    w.AddContentType name contentType false =
      Except.ok { w with
        m_xmlWriter := ⟨w.m_xmlWriter.ops ++ defaultOps (computeExt name) contentType,
          w.m_xmlWriter.depth⟩
        m_defaultExtensions := (computeExt name, contentType) :: w.m_defaultExtensions } := by
  simp [ContentTypeWriter.AddContentType, hg, hl,
    addDefault_ok w (computeExt name) contentType hd, bind, Except.bind, pure, Except.pure]

lemma addContentType_same (w : ContentTypeWriter) (name contentType : String)
    (hg : wellKnownGuard w name = false)
    (hl : w.m_defaultExtensions.lookup (computeExt name) = some contentType) :
    w.AddContentType name contentType false = Except.ok w := by
  simp [ContentTypeWriter.AddContentType, hg, hl]

lemma addContentType_conflict (w : ContentTypeWriter) (name contentType found : String)
    (hg : wellKnownGuard w name = false) (hd : 0 < w.m_xmlWriter.depth)
    (hl : w.m_defaultExtensions.lookup (computeExt name) = some found)
    (hne : found ≠ contentType) :
    w.AddContentType name contentType false =
      Except.ok { w with m_xmlWriter :=
        ⟨w.m_xmlWriter.ops ++ overrideOps name contentType, w.m_xmlWriter.depth⟩ } := by
  simp [ContentTypeWriter.AddContentType, hg, hl, hne,
    addOverride_ok w name contentType hd]

lemma countElements_defaultOps_default (e c : String) :
    countElements defaultElement (defaultOps e c) = 1 := by
  simp [countElements, defaultOps, defaultElement, overrideElement, contentTypeAttribute,
    extensionAttribute, List.filter]

lemma countElements_defaultOps_override (e c : String) :
    countElements overrideElement (defaultOps e c) = 0 := by
  simp [countElements, defaultOps, defaultElement, overrideElement, List.filter]

lemma countElements_overrideOps_override (f c : String) :
    countElements overrideElement (overrideOps f c) = 1 := by
  simp [countElements, overrideOps, List.filter]

lemma countElements_overrideOps_default (f c : String) :
    countElements defaultElement (overrideOps f c) = 0 := by
  simp [countElements, overrideOps, defaultElement, overrideElement, List.filter]

/-! ## Claim theorems -/

/-- C4 counterexample: the claim says `GetPartNameSearchString(f)` is a
leading `/`, then `f`, then a trailing double-quote; at
`f = "AppxSignature.p7x"` the function does not return that string (it
prepends a double-quote before the slash). -/
theorem C4_claim_counterexample :
    GetPartNameSearchString "AppxSignature.p7x" ≠ "/" ++ "AppxSignature.p7x" ++ "\"" := by
  decide

/-- C4 (amended): for every file name `f`, `GetPartNameSearchString f` is
a pure function of `f` returning a leading double-quote, then `/`, then
`f`, then a trailing double-quote — the literal occurring inside the
serialized attribute `PartName="/AppxSignature.p7x"`; in particular at
`f = "AppxSignature.p7x"` it returns `"/AppxSignature.p7x"` surrounded by
double-quotes. -/
theorem C4_getPartNameSearchString (f : String) :
    (GetPartNameSearchString f).data = '"' :: '/' :: (f.data ++ ['"']) ∧
    GetPartNameSearchString "AppxSignature.p7x" = "\"/AppxSignature.p7x\"" := by
  constructor
  · show (("\"/" ++ f) ++ "\"").data = _
    rw [String.data_append, String.data_append]
    rfl
  · rfl

/-- C2: when `name` is the signature part and the signature-override flag
is set, or `name` is the code-integrity catalog part and its flag is set,
`AddContentType` returns the writer unchanged (no element, no table or
flag change) for any content type and any `forceOverride`; and after
`reopen` on source text containing the serialized signature-override
fragment, `AddContentType "AppxSignature.p7x" anyType true` is a no-op. -/
theorem C2_wellKnown_noop :
    (∀ (w : ContentTypeWriter) (name contentType : String) (forceOverride : Bool),
      ((name = APPXSIGNATURE_P7X ∧ w.m_hasSignatureOverride = true) ∨
       (name = CODEINTEGRITY_CAT ∧ w.m_hasCIOverride = true)) →
      w.AddContentType name contentType forceOverride = Except.ok w) ∧
    (∀ (sourceXml anyType : String),
      containsSub sourceXml (GetPartNameSearchString APPXSIGNATURE_P7X) = true →
      (ContentTypeWriter.reopen sourceXml).AddContentType "AppxSignature.p7x" anyType true =
        Except.ok (ContentTypeWriter.reopen sourceXml)) := by
  constructor
  · intro w name contentType forceOverride h
    exact addContentType_guard w name contentType forceOverride
      ((wellKnownGuard_iff w name).mpr h)
  · intro sourceXml anyType h
    refine addContentType_guard _ _ _ _ ((wellKnownGuard_iff _ _).mpr (Or.inl ⟨rfl, ?_⟩))
    simpa [ContentTypeWriter.reopen] using h

/-- C2 witness: a writer with the signature flag set swallows the call,
and a reopened manifest whose text contains the serialized fragment
swallows the forced re-add of the signature part. -/
theorem C2_wellKnown_noop_witness :
    (ContentTypeWriter.mk ⟨[], 1⟩ [] true false).AddContentType
        "AppxSignature.p7x" "application/vnd.ms-appx.signature" true =
      Except.ok (ContentTypeWriter.mk ⟨[], 1⟩ [] true false) ∧
    (ContentTypeWriter.reopen "<Override PartName=\"/AppxSignature.p7x\"/>").AddContentType
        "AppxSignature.p7x" "application/vnd.ms-appx.signature" true =
      Except.ok (ContentTypeWriter.reopen "<Override PartName=\"/AppxSignature.p7x\"/>") :=
  ⟨C2_wellKnown_noop.1 (ContentTypeWriter.mk ⟨[], 1⟩ [] true false)
      "AppxSignature.p7x" "application/vnd.ms-appx.signature" true (Or.inl ⟨rfl, rfl⟩),
   C2_wellKnown_noop.2 "<Override PartName=\"/AppxSignature.p7x\"/>"
      "application/vnd.ms-appx.signature" (by decide)⟩

/-- C3: with the well-known guard passed and the document still open,
`AddContentType name contentType true` appends exactly the single
`Override` element block — one `Override` start, no `Default` — whatever
the `DefaultExtensionTable` holds and whatever was emitted before. -/
theorem C3_forced_always_overrides (w : ContentTypeWriter) (name contentType : String)
    (hg : wellKnownGuard w name = false) (hd : 0 < w.m_xmlWriter.depth) :
    w.AddContentType name contentType true =
      Except.ok { w with m_xmlWriter :=
        ⟨w.m_xmlWriter.ops ++ overrideOps name contentType, w.m_xmlWriter.depth⟩ } ∧
    countElements overrideElement (overrideOps name contentType) = 1 ∧
    countElements defaultElement (overrideOps name contentType) = 0 :=
  ⟨addContentType_forced w name contentType hg hd,
   countElements_overrideOps_override name contentType,
   countElements_overrideOps_default name contentType⟩

/-- C3 witness: on a fresh writer, a forced add of `a.txt` emits one
`Override` block. -/
theorem C3_forced_always_overrides_witness :
    ContentTypeWriter.new.AddContentType "a.txt" "text/plain" true =
      Except.ok { ContentTypeWriter.new with m_xmlWriter :=
        ⟨ContentTypeWriter.new.m_xmlWriter.ops ++ overrideOps "a.txt" "text/plain",
         ContentTypeWriter.new.m_xmlWriter.depth⟩ } ∧
    countElements overrideElement (overrideOps "a.txt" "text/plain") = 1 ∧
    countElements defaultElement (overrideOps "a.txt" "text/plain") = 0 :=
  C3_forced_always_overrides ContentTypeWriter.new "a.txt" "text/plain" (by decide) (by decide)

/-- C7: on an open document, a `Default` emission appends exactly one
self-closing child, attributes `ContentType` then `Extension`, and an
`Override` emission appends exactly one self-closing child with part name
`/` + `name`, attributes `ContentType` then `PartName`; both leave the
open-element depth unchanged. -/
theorem C7_emission_blocks (w : ContentTypeWriter) (ext ct1 name ct2 : String)
    (hd : 0 < w.m_xmlWriter.depth) :
    w.AddDefault ext ct1 =
      Except.ok { w with m_xmlWriter :=
        ⟨w.m_xmlWriter.ops ++
          [XmlOp.start defaultElement, XmlOp.attr contentTypeAttribute ct1,
           XmlOp.attr extensionAttribute ext, XmlOp.close],
         w.m_xmlWriter.depth⟩ } ∧
    w.AddOverride name ct2 =
      Except.ok { w with m_xmlWriter :=
        ⟨w.m_xmlWriter.ops ++
          [XmlOp.start overrideElement, XmlOp.attr contentTypeAttribute ct2,
           XmlOp.attr partNameAttribute ("/" ++ name), XmlOp.close],
         w.m_xmlWriter.depth⟩ } :=
  ⟨addDefault_ok w ext ct1 hd, addOverride_ok w name ct2 hd⟩

/-- C7 witness: the two emission blocks on a fresh writer. -/
theorem C7_emission_blocks_witness :
    ContentTypeWriter.new.AddDefault "png" "image/png" =
      Except.ok { ContentTypeWriter.new with m_xmlWriter :=
        ⟨ContentTypeWriter.new.m_xmlWriter.ops ++
          [XmlOp.start defaultElement, XmlOp.attr contentTypeAttribute "image/png",
           XmlOp.attr extensionAttribute "png", XmlOp.close],
         ContentTypeWriter.new.m_xmlWriter.depth⟩ } ∧
    ContentTypeWriter.new.AddOverride "AppxBlockMap.xml" "application/vnd.ms-appx.blockmap+xml" =
      Except.ok { ContentTypeWriter.new with m_xmlWriter :=
        ⟨ContentTypeWriter.new.m_xmlWriter.ops ++
          [XmlOp.start overrideElement,
           XmlOp.attr contentTypeAttribute "application/vnd.ms-appx.blockmap+xml",
           XmlOp.attr partNameAttribute ("/" ++ "AppxBlockMap.xml"), XmlOp.close],
         ContentTypeWriter.new.m_xmlWriter.depth⟩ } :=
  C7_emission_blocks ContentTypeWriter.new "png" "image/png" "AppxBlockMap.xml"
    "application/vnd.ms-appx.blockmap+xml" (by decide)

lemma close_spec (w : ContentTypeWriter) :
    w.Close =
      if w.m_xmlWriter.depth = 1
      then Except.ok { w with m_xmlWriter := ⟨w.m_xmlWriter.ops ++ [XmlOp.close], 0⟩ }
      else Except.error Error.Unexpected := by
  rcases hdep : w.m_xmlWriter.depth with _ | n
  · simp [ContentTypeWriter.Close, XmlWriter.CloseElement, hdep]
  · by_cases hn : n = 0
    · subst hn
      simp [ContentTypeWriter.Close, XmlWriter.CloseElement, XmlWriter.GetState, hdep]
    · have h1 : ¬ (n + 1 = 1) := by omega
      simp [ContentTypeWriter.Close, XmlWriter.CloseElement, XmlWriter.GetState, hdep, hn, h1]

/-- C5: `Close` pushes the root-closing call to the collaborator and
succeeds exactly when the collaborator then reports the terminal `Finish`
state; on a writer whose root is open and is the only open element,
`Close` succeeds and a second `Close` fails with `Error.Unexpected`. -/
theorem C5_close (w : ContentTypeWriter) :
    ((∃ w', w.Close = Except.ok w') ↔
      (∃ xw, w.m_xmlWriter.CloseElement = Except.ok xw ∧ xw.GetState = XmlState.Finish)) ∧
    (w.m_xmlWriter.depth = 1 →
      ∃ w', w.Close = Except.ok w' ∧ w'.Close = Except.error Error.Unexpected) := by
  constructor
  · constructor
    · rintro ⟨w', hw'⟩
      rw [close_spec] at hw'
      by_cases h1 : w.m_xmlWriter.depth = 1
      · refine ⟨⟨w.m_xmlWriter.ops ++ [XmlOp.close], 0⟩, ?_, ?_⟩
        · simp [XmlWriter.CloseElement, h1]
        · simp [XmlWriter.GetState]
      · simp [h1] at hw'
    · rintro ⟨xw, hxw, hfin⟩
      unfold XmlWriter.CloseElement at hxw
      by_cases h0 : w.m_xmlWriter.depth = 0
      · simp [h0] at hxw
      · simp [h0] at hxw
        have hdepth : xw.depth = w.m_xmlWriter.depth - 1 := by
          rw [← hxw]
        have hfin0 : xw.depth = 0 := by
          by_contra hne
          simp [XmlWriter.GetState, hne] at hfin
        have h1 : w.m_xmlWriter.depth = 1 := by omega
        exact ⟨_, by rw [close_spec, if_pos h1]⟩
  · intro h1
    refine ⟨{ w with m_xmlWriter := ⟨w.m_xmlWriter.ops ++ [XmlOp.close], 0⟩ }, ?_, ?_⟩
    · rw [close_spec, if_pos h1]
    · rw [close_spec]
      simp

/-- C5 witness: the fresh writer closes once and only once. -/
theorem C5_close_witness :
    ∃ w', ContentTypeWriter.new.Close = Except.ok w' ∧
      w'.Close = Except.error Error.Unexpected :=
  (C5_close ContentTypeWriter.new).2 rfl

/-- C1: with the guard passed and the document open, a non-forced add is
decided by exactly one of three exclusive cases on the lower-cased
extension: absent from the table — insert `(ext, contentType)` and append
exactly one `Default` block; present with the same type — return the
writer unchanged; present with another type — append exactly one
`Override` block and leave the table (hence its entry for `ext`)
unchanged. -/
theorem C1_nonforced_three_cases (w : ContentTypeWriter) (name contentType : String)
    (hg : wellKnownGuard w name = false) (hd : 0 < w.m_xmlWriter.depth) :
    (w.m_defaultExtensions.lookup (computeExt name) = none →
      w.AddContentType name contentType false =
        Except.ok { w with
          m_xmlWriter := ⟨w.m_xmlWriter.ops ++ defaultOps (computeExt name) contentType,
            w.m_xmlWriter.depth⟩
          m_defaultExtensions := (computeExt name, contentType) :: w.m_defaultExtensions } ∧
      countElements defaultElement (defaultOps (computeExt name) contentType) = 1 ∧
      countElements overrideElement (defaultOps (computeExt name) contentType) = 0) ∧
    (w.m_defaultExtensions.lookup (computeExt name) = some contentType →
      w.AddContentType name contentType false = Except.ok w) ∧
    (∀ found, w.m_defaultExtensions.lookup (computeExt name) = some found →
      found ≠ contentType →
      w.AddContentType name contentType false =
        Except.ok { w with m_xmlWriter :=
          ⟨w.m_xmlWriter.ops ++ overrideOps name contentType, w.m_xmlWriter.depth⟩ } ∧
      countElements overrideElement (overrideOps name contentType) = 1 ∧
      countElements defaultElement (overrideOps name contentType) = 0) := by
  refine ⟨fun hl => ⟨addContentType_absent w name contentType hg hd hl, ?_, ?_⟩,
    fun hl => addContentType_same w name contentType hg hl,
    fun found hl hne => ⟨addContentType_conflict w name contentType found hg hd hl hne, ?_, ?_⟩⟩
  · exact countElements_defaultOps_default _ _
  · exact countElements_defaultOps_override _ _
  · exact countElements_overrideOps_override _ _
  · exact countElements_overrideOps_default _ _

/-- C1 witness: on a fresh writer, adding `icon.png` as `image/png`
lands in the absent case and emits one `Default` block for `png`. -/
theorem C1_nonforced_three_cases_witness :
    ContentTypeWriter.new.AddContentType "icon.png" "image/png" false =
      Except.ok { ContentTypeWriter.new with
        m_xmlWriter := ⟨ContentTypeWriter.new.m_xmlWriter.ops ++
          defaultOps (computeExt "icon.png") "image/png",
          ContentTypeWriter.new.m_xmlWriter.depth⟩
        m_defaultExtensions :=
          (computeExt "icon.png", "image/png") :: ContentTypeWriter.new.m_defaultExtensions } ∧
    countElements defaultElement (defaultOps (computeExt "icon.png") "image/png") = 1 ∧
    countElements overrideElement (defaultOps (computeExt "icon.png") "image/png") = 0 :=
  (C1_nonforced_three_cases ContentTypeWriter.new "icon.png" "image/png"
    (by decide) (by decide)).1 (by decide)

/-- C9: a forced override neither reads nor writes the
`DefaultExtensionTable`: the table, both flags and the open depth are
exactly as before the call, so a later non-forced call whose extension is
still absent behaves as if the forced call had never happened and emits
the first `Default` for that extension. -/
theorem C9_forced_frame (w : ContentTypeWriter) (name contentType : String)
    (hg : wellKnownGuard w name = false) (hd : 0 < w.m_xmlWriter.depth) :
    ∃ w', w.AddContentType name contentType true = Except.ok w' ∧
      w'.m_defaultExtensions = w.m_defaultExtensions ∧
      w'.m_hasSignatureOverride = w.m_hasSignatureOverride ∧
      w'.m_hasCIOverride = w.m_hasCIOverride ∧
      w'.m_xmlWriter.depth = w.m_xmlWriter.depth ∧
      (∀ name2 contentType2, wellKnownGuard w name2 = false →
        w.m_defaultExtensions.lookup (computeExt name2) = none →
        ∃ w2, w'.AddContentType name2 contentType2 false = Except.ok w2 ∧
          w2.m_xmlWriter.ops =
            w'.m_xmlWriter.ops ++ defaultOps (computeExt name2) contentType2 ∧
          w2.m_defaultExtensions =
            (computeExt name2, contentType2) :: w.m_defaultExtensions) := by
  refine ⟨{ w with m_xmlWriter :=
      ⟨w.m_xmlWriter.ops ++ overrideOps name contentType, w.m_xmlWriter.depth⟩ },
    addContentType_forced w name contentType hg hd, rfl, rfl, rfl, rfl, ?_⟩
  intro name2 contentType2 hg2 hl2
  exact ⟨_, addContentType_absent _ name2 contentType2 hg2 hd hl2, rfl, rfl⟩

/-- C9 witness: a forced override of `x.png` on a fresh writer leaves the
empty table intact, and a following non-forced `icon.png` add still emits
the first `Default` for `png`. -/
theorem C9_forced_frame_witness :
    ∃ w', ContentTypeWriter.new.AddContentType "x.png" "image/png" true = Except.ok w' ∧
      w'.m_defaultExtensions = ContentTypeWriter.new.m_defaultExtensions ∧
      w'.m_hasSignatureOverride = ContentTypeWriter.new.m_hasSignatureOverride ∧
      w'.m_hasCIOverride = ContentTypeWriter.new.m_hasCIOverride ∧
      w'.m_xmlWriter.depth = ContentTypeWriter.new.m_xmlWriter.depth ∧
      (∀ name2 contentType2, wellKnownGuard ContentTypeWriter.new name2 = false →
        ContentTypeWriter.new.m_defaultExtensions.lookup (computeExt name2) = none →
        ∃ w2, w'.AddContentType name2 contentType2 false = Except.ok w2 ∧
          w2.m_xmlWriter.ops =
            w'.m_xmlWriter.ops ++ defaultOps (computeExt name2) contentType2 ∧
          w2.m_defaultExtensions =
            (computeExt name2, contentType2) :: ContentTypeWriter.new.m_defaultExtensions) :=
  C9_forced_frame ContentTypeWriter.new "x.png" "image/png" (by decide) (by decide)

lemma find_last_of_eq_none (l : List Char) (c : Char) (h : c ∉ l) :
    find_last_of l c = none := by
  induction l with
  | nil => rfl
  | cons x xs ih =>
    have hx : x ≠ c := fun hxc => h (hxc ▸ List.mem_cons_self x xs)
    have hxs : c ∉ xs := fun hmem => h (List.mem_cons_of_mem x hmem)
    simp [find_last_of, ih hxs, hx]

/-- C10: when `name` contains no `.`, `find_last_of` yields `npos`, the
`npos + 1` start index wraps to `0`, and the computed extension is the
whole name lower-cased; in particular `README` is keyed as `readme` and,
when that key is absent, a non-forced add emits a `Default` block whose
`Extension` attribute is the whole lower-cased name. -/
theorem C10_no_dot_extension :
    (∀ name : String, '.' ∉ name.data → computeExt name = strToLower name) ∧
    computeExt "README" = "readme" ∧
    (∀ (w : ContentTypeWriter) (contentType : String),
      wellKnownGuard w "README" = false → 0 < w.m_xmlWriter.depth →
      w.m_defaultExtensions.lookup "readme" = none →
      w.AddContentType "README" contentType false =
        Except.ok { w with
          m_xmlWriter := ⟨w.m_xmlWriter.ops ++ defaultOps "readme" contentType,
            w.m_xmlWriter.depth⟩
          m_defaultExtensions := ("readme", contentType) :: w.m_defaultExtensions }) := by
  refine ⟨?_, by decide, ?_⟩
  · intro name h
    show (let start : Nat :=
        match find_last_of name.data '.' with
        | some i => i + 1
        | none => 0
      strToLower ⟨name.data.drop start⟩) = strToLower name
    rw [find_last_of_eq_none name.data '.' h]
    rfl
  · intro w contentType hg hd hl
    have hce : computeExt "README" = "readme" := by decide
    have := addContentType_absent w "README" contentType hg hd (by rw [hce]; exact hl)
    rw [hce] at this
    exact this

/-- C10 witness: `README` has no dot, is keyed as `readme`, and on a
fresh writer emits the `Default` block for `readme`. -/
theorem C10_no_dot_extension_witness :
    computeExt "README" = strToLower "README" ∧
    ContentTypeWriter.new.AddContentType "README" "text/plain" false =
      Except.ok { ContentTypeWriter.new with
        m_xmlWriter := ⟨ContentTypeWriter.new.m_xmlWriter.ops ++ defaultOps "readme" "text/plain",
          ContentTypeWriter.new.m_xmlWriter.depth⟩
        m_defaultExtensions :=
          ("readme", "text/plain") :: ContentTypeWriter.new.m_defaultExtensions } :=
  ⟨C10_no_dot_extension.1 "README" (by decide),
   C10_no_dot_extension.2.2 ContentTypeWriter.new "text/plain" (by decide) (by decide) rfl⟩

lemma countElements_append (e : String) (l1 l2 : List XmlOp) :
    countElements e (l1 ++ l2) = countElements e l1 + countElements e l2 := by
  simp [countElements, List.filter_append]

lemma countElements_flatten_replicate (e : String) (b : List XmlOp) :
    ∀ n : Nat, countElements e ((List.replicate n b).flatten) = n * countElements e b := by
  intro n
  induction n with
  | zero => simp [countElements]
  | succ m ih =>
    simp [List.replicate_succ, countElements_append, ih, Nat.succ_mul, Nat.add_comm]

lemma addAll_noops (e ct : String) :
    ∀ (calls : List (String × String)) (w : ContentTypeWriter),
      (∀ p ∈ calls, computeExt p.1 = e ∧ p.2 = ct ∧ wellKnownGuard w p.1 = false) →
      w.m_defaultExtensions.lookup e = some ct →
      addAll w calls = Except.ok w := by
  intro calls
  induction calls with
  | nil => intro w _ _; rfl
  | cons p rest ih =>
    obtain ⟨n, c⟩ := p
    intro w hall hl
    obtain ⟨hce, hct, hg⟩ := hall (n, c) (List.mem_cons_self _ _)
    have hstep : w.AddContentType n c false = Except.ok w :=
      addContentType_same w n c hg (by rw [hce, hl]; exact congrArg some hct.symm)
    have h2 : addAll w ((n, c) :: rest) = addAll w rest := by
      simp [addAll, hstep]
    rw [h2]
    exact ih w (fun q hq => hall q (List.mem_cons_of_mem _ hq)) hl

lemma addAll_conflict_replicate (name ct found : String) (hne : found ≠ ct) :
    ∀ (n : Nat) (w : ContentTypeWriter),
      wellKnownGuard w name = false → 0 < w.m_xmlWriter.depth →
      w.m_defaultExtensions.lookup (computeExt name) = some found →
      ∃ w', addAll w (List.replicate n (name, ct)) = Except.ok w' ∧
        w'.m_xmlWriter.ops =
          w.m_xmlWriter.ops ++ (List.replicate n (overrideOps name ct)).flatten ∧
        w'.m_defaultExtensions = w.m_defaultExtensions ∧
        w'.m_xmlWriter.depth = w.m_xmlWriter.depth := by
  intro n
  induction n with
  | zero =>
    intro w _ _ _
    exact ⟨w, rfl, by simp, rfl, rfl⟩
  | succ m ih =>
    intro w hg hd hl
    have hstep := addContentType_conflict w name ct found hg hd hl hne
    obtain ⟨w', hrun, hops, htbl, hdep⟩ :=
      ih { w with m_xmlWriter :=
        ⟨w.m_xmlWriter.ops ++ overrideOps name ct, w.m_xmlWriter.depth⟩ } hg hd hl
    refine ⟨w', ?_, ?_, htbl, hdep⟩
    · have h2 : addAll w (List.replicate (m + 1) (name, ct)) =
          addAll { w with m_xmlWriter :=
            ⟨w.m_xmlWriter.ops ++ overrideOps name ct, w.m_xmlWriter.depth⟩ }
            (List.replicate m (name, ct)) := by
        simp [List.replicate_succ, addAll, hstep]
      rw [h2]
      exact hrun
    · rw [hops]
      simp [List.replicate_succ, List.append_assoc]

/-- C6: for any non-forced session fragment whose calls all share, after
lower-casing, the extension `e` and the content type `ct` (and pass the
well-known guard), starting from a table without `e`, exactly one
`Default` block is appended — with `Extension` attribute value the
lower-cased `e` — and nothing else; in particular `a.PNG` and `b.png` are
both keyed as `png`. -/
theorem C6_default_dedup_case_insensitive (w : ContentTypeWriter)
    (e ct name1 : String) (rest : List (String × String))
    (hg1 : wellKnownGuard w name1 = false) (he1 : computeExt name1 = e)
    (hrest : ∀ p ∈ rest, computeExt p.1 = e ∧ p.2 = ct ∧ wellKnownGuard w p.1 = false)
    (hl : w.m_defaultExtensions.lookup e = none) (hd : 0 < w.m_xmlWriter.depth) :
    (∃ w', addAll w ((name1, ct) :: rest) = Except.ok w' ∧
      w'.m_xmlWriter.ops = w.m_xmlWriter.ops ++ defaultOps e ct ∧
      countElements defaultElement (defaultOps e ct) = 1 ∧
      countElements overrideElement (defaultOps e ct) = 0 ∧
      w'.m_defaultExtensions.lookup e = some ct) ∧
    computeExt "a.PNG" = "png" ∧ computeExt "b.png" = "png" := by
  refine ⟨?_, by decide, by decide⟩
  have hstep := addContentType_absent w name1 ct hg1 hd (by rw [he1]; exact hl)
  rw [he1] at hstep
  refine ⟨{ w with
      m_xmlWriter := ⟨w.m_xmlWriter.ops ++ defaultOps e ct, w.m_xmlWriter.depth⟩
      m_defaultExtensions := (e, ct) :: w.m_defaultExtensions }, ?_, rfl,
    countElements_defaultOps_default e ct, countElements_defaultOps_override e ct, ?_⟩
  · have h2 : addAll w ((name1, ct) :: rest) =
        addAll { w with
          m_xmlWriter := ⟨w.m_xmlWriter.ops ++ defaultOps e ct, w.m_xmlWriter.depth⟩
          m_defaultExtensions := (e, ct) :: w.m_defaultExtensions } rest := by
      simp [addAll, hstep]
    rw [h2]
    refine addAll_noops e ct rest _ ?_ ?_
    · exact fun p hp => (hrest p hp)
    · simp [List.lookup]
  · simp [List.lookup]

/-- C6 witness: on a fresh writer, adding `a.PNG` then `b.png`, both as
`image/png`, appends exactly one `Default` block, keyed and attributed
`png`. -/
theorem C6_default_dedup_witness :
    ∃ w', addAll ContentTypeWriter.new [("a.PNG", "image/png"), ("b.png", "image/png")] =
        Except.ok w' ∧
      w'.m_xmlWriter.ops = ContentTypeWriter.new.m_xmlWriter.ops ++ defaultOps "png" "image/png" ∧
      countElements defaultElement (defaultOps "png" "image/png") = 1 ∧
      countElements overrideElement (defaultOps "png" "image/png") = 0 ∧
      w'.m_defaultExtensions.lookup "png" = some "image/png" :=
  (C6_default_dedup_case_insensitive ContentTypeWriter.new "png" "image/png" "a.PNG"
    [("b.png", "image/png")] (by decide) (by decide) (by decide) rfl (by decide)).1

/-- C8: apart from the two well-known flags the writer records nothing
about emitted overrides, so `n` repeated non-forced adds of the same
`name` whose extension is tabled with a different content type append `n`
`Override` blocks (and leave the table untouched). -/
theorem C8_overrides_not_deduplicated (w : ContentTypeWriter)
    (name ct found : String) (n : Nat)
    (hg : wellKnownGuard w name = false) (hd : 0 < w.m_xmlWriter.depth)
    (hl : w.m_defaultExtensions.lookup (computeExt name) = some found)
    (hne : found ≠ ct) :
    ∃ w', addAll w (List.replicate n (name, ct)) = Except.ok w' ∧
      w'.m_xmlWriter.ops =
        w.m_xmlWriter.ops ++ (List.replicate n (overrideOps name ct)).flatten ∧
      countElements overrideElement ((List.replicate n (overrideOps name ct)).flatten) = n ∧
      w'.m_defaultExtensions = w.m_defaultExtensions := by
  obtain ⟨w', hrun, hops, htbl, _⟩ := addAll_conflict_replicate name ct found hne n w hg hd hl
  refine ⟨w', hrun, hops, ?_, htbl⟩
  rw [countElements_flatten_replicate, countElements_overrideOps_override, Nat.mul_one]

/-- C8 witness: with `png` tabled as `image/png`, three repeated adds of
`x.png` as `text/other` append three `Override` blocks. -/
theorem C8_overrides_not_deduplicated_witness :
    ∃ w', addAll (ContentTypeWriter.mk ⟨[], 1⟩ [("png", "image/png")] false false)
        (List.replicate 3 ("x.png", "text/other")) = Except.ok w' ∧
      w'.m_xmlWriter.ops =
        (ContentTypeWriter.mk ⟨[], 1⟩ [("png", "image/png")] false false).m_xmlWriter.ops ++
          (List.replicate 3 (overrideOps "x.png" "text/other")).flatten ∧
      countElements overrideElement
        ((List.replicate 3 (overrideOps "x.png" "text/other")).flatten) = 3 ∧
      w'.m_defaultExtensions =
        (ContentTypeWriter.mk ⟨[], 1⟩ [("png", "image/png")] false false).m_defaultExtensions :=
  C8_overrides_not_deduplicated (ContentTypeWriter.mk ⟨[], 1⟩ [("png", "image/png")] false false)
    "x.png" "text/other" "image/png" 3 (by decide) (by decide) (by decide) (by decide)

end MSIX
